import Mathlib

/-!
Verification development for the AresBot v3 strategy coordination layer.

Shallow embedding of the executable pieces found under the repository
(frontend TypeScript utilities and views, the worker entrypoint shell
script, the documented Redis status/lock schema) together with models
of the backend components (coordinator lock, grid strategy, risk
manager, start/stop dispatch) whose Python sources are not part of the
tree; each such model carries a doc comment naming its origin.
-/

set_option maxRecDepth 4000

/- ------------------------------------------------------------------
   Exchange-color hashing (web/src exchange color helper).
   JavaScript source:
     hash = ((hash << 5) - hash + str.charCodeAt(i)) | 0  over code units
     hashCode returns Math.abs(hash)
     exchangeColor:   hsl(hashCode % 360, 55%, 45%)
     exchangeBgColor: hsl(hashCode % 360, 50%, 94%)
   ------------------------------------------------------------------ -/

/-- Signed 32-bit wrap of an integer, matching the JavaScript bitwise-or
with 0 conversion (ToInt32). -/
def toInt32 (z : Int) : Int :=
  let m := z % 4294967296
  if m < 2147483648 then m else m - 4294967296

/-- One step of the JS string hash: `((hash << 5) - hash + c) | 0`.
The shift wraps to 32 bits before the subtraction; the subtraction and
addition are exact in doubles at these magnitudes, and the final or-zero
wraps again. -/
def hashStep (h : Int) (c : Nat) : Int :=
  toInt32 (toInt32 (h * 32) - h + c)

/-- UTF-16 code units of a string, the sequence that
`str.charCodeAt(i)` walks in JavaScript (astral characters split into
surrogate pairs). -/
def utf16Units (s : String) : List Nat :=
  s.data.foldr
    (fun c acc =>
      if c.toNat < 65536 then c.toNat :: acc
      else (55296 + (c.toNat - 65536) / 1024) :: (56320 + (c.toNat - 65536) % 1024) :: acc)
    []

/-- The hash of the exchange-color helper: fold the step over the code
units and take the absolute value, as `Math.abs`. -/
def hashCode (s : String) : Int :=
  Int.ofNat ((utf16Units s).foldl hashStep 0).natAbs

/-- Foreground color: fixed saturation 55%, lightness 45%. -/
def exchangeColor (exchangeId : String) : String :=
  let h := hashCode exchangeId % 360
  "hsl(" ++ toString h ++ ", 55%, 45%)"

/-- Background color: fixed saturation 50%, lightness 94%. -/
def exchangeBgColor (exchangeId : String) : String :=
  let h := hashCode exchangeId % 360
  "hsl(" ++ toString h ++ ", 50%, 94%)"

/- ------------------------------------------------------------------
   Worker entrypoint shell script (resolve_seed / build_worker_name).
   ------------------------------------------------------------------ -/

/-- Environment the entrypoint script runs in.  Option fields are `none`
when the variable is unset or the file does not exist; the hash fields
abstract the external `sha256sum` / `md5sum` binaries as hex-digest
functions (their output line starts with the digest, so taking the
first 12 characters of the line equals taking them from the digest). -/
structure ShellEnv where
  workerNodeId : Option String
  machineId : Option String
  hostname : String
  workerNameEnv : Option String
  persistedName : Option String
  hasSha256sum : Bool
  sha256hex : String → String
  md5hex : String → String
  namePref : String

/-- Drop newline characters, as `tr -d` with a newline set does. -/
def stripNewlines (s : String) : String :=
  String.mk (s.data.filter (fun c => c != Char.ofNat 10))

/-- Drop carriage-return and newline characters, as the script's
`tr -d` over both does when re-reading the persisted name file. -/
def stripCrLf (s : String) : String :=
  String.mk (s.data.filter (fun c => c != Char.ofNat 10 && c != Char.ofNat 13))

/-- resolve_seed: WORKER_NODE_ID when set nonempty, else the
newline-stripped /etc/machine-id when that file exists, else the
hostname. -/
def resolve_seed (env : ShellEnv) : String :=
  if env.workerNodeId.getD ("") ≠ "" then env.workerNodeId.getD ("")
  else
    match env.machineId with
    | some content => stripNewlines content
    | none => env.hostname

/-- Digest used for the name suffix: sha256 when the binary is present,
md5 otherwise. -/
def hashHex (env : ShellEnv) (s : String) : String :=
  if env.hasSha256sum then env.sha256hex s else env.md5hex s

/-- build_worker_name: WORKER_NAME_PREFIX, a dash, and the first 12
characters of the digest of the resolved seed. -/
def build_worker_name (env : ShellEnv) : String :=
  env.namePref ++ "-" ++ String.mk ((hashHex env (resolve_seed env)).data.take 12)

/-- Name the script settles on: WORKER_NAME verbatim when set nonempty,
else the persisted file contents with CR and LF stripped, else a
freshly built name (which the script then persists). -/
def entrypointName (env : ShellEnv) : String :=
  if env.workerNameEnv.getD ("") ≠ "" then env.workerNameEnv.getD ("")
  else
    match env.persistedName with
    | some content => stripCrLf content
    | none => build_worker_name env

/-- Outcome of the entrypoint: either the worker process is exec'd with
a name, or the script exits with status 1. -/
inductive StartResult where
  | started (name : String)
  | exitError (msg : String)
deriving DecidableEq

/-- Tail of the script: refuse to start when the final name is empty. -/
def entrypoint (env : ShellEnv) : StartResult :=
  let n := entrypointName env
  if n = "" then StartResult.exitError ("worker name is empty") else StartResult.started n

/- ------------------------------------------------------------------
   Frontend status readers (Monitor views in web/src).
   ------------------------------------------------------------------ -/

/-- Fields of the frontend StrategyStatus that the reader logic
touches; `updated_at` is optional in the TypeScript interface. -/
structure StrategyStatusFE where
  strategy_id : Nat
  is_running : Bool
  current_price : Option ℚ
  pending_buys : Nat
  pending_sells : Nat
  position_count : Nat
  updated_at : Option Int
  last_error : Option String
deriving DecidableEq

/-- Result of `strategyApi.getStatus`: a status payload, or a rejected
promise (network/HTTP error caught by the view). -/
inductive FetchResult where
  | ok (st : StrategyStatusFE)
  | err
deriving DecidableEq

/-- Remove a key from the id-keyed status map (Map.delete). -/
def mapErase (id : Nat) (m : List (Nat × StrategyStatusFE)) : List (Nat × StrategyStatusFE) :=
  m.filter (fun e => e.1 != id)

/-- Set a key in the id-keyed status map (Map.set replaces). -/
def mapInsert (id : Nat) (st : StrategyStatusFE) (m : List (Nat × StrategyStatusFE)) :
    List (Nat × StrategyStatusFE) :=
  (id, st) :: mapErase id m

/-- Map.get, as an Option. -/
def mapLookup (id : Nat) (m : List (Nat × StrategyStatusFE)) : Option StrategyStatusFE :=
  (m.find? (fun e => e.1 == id)).map Prod.snd

/-- fetchStatus in the Monitor view: on a payload with is_running the
record is stored; on a non-running payload or on an error the id is
deleted from the map.  No field other than is_running is inspected. -/
def fetchStatusStep (id : Nat) (res : FetchResult) (m : List (Nat × StrategyStatusFE)) :
    List (Nat × StrategyStatusFE) :=
  match res with
  | FetchResult.ok st => if st.is_running then mapInsert id st m else mapErase id m
  | FetchResult.err => mapErase id m

/-- Fields of a RunningStrategy item that the statusMap construction in
the getRunning-based Monitor view reads. -/
structure RunningStrategyFE where
  strategy_id : Nat
  task_id : String
  worker_ip : String
  worker_hostname : String
  status : String
  current_price : Option ℚ
  pending_buys : Nat
  pending_sells : Nat
  position_count : Nat
  started_at : Option Int
  updated_at : Option Int
  last_error : Option String
deriving DecidableEq

/-- statusMap entry built from a getRunning item: is_running is the
comparison of the status field against the running literal; updated_at
is copied through without any freshness comparison. -/
def statusFromRunning (item : RunningStrategyFE) : StrategyStatusFE :=
  { strategy_id := item.strategy_id
    is_running := item.status == "running"
    current_price := item.current_price
    pending_buys := item.pending_buys
    pending_sells := item.pending_sells
    position_count := item.position_count
    updated_at := item.updated_at
    last_error := item.last_error }

/-- Modelled from the spec: the API-side status reader (the FastAPI
status route is not part of the tree).  A record is reported running
only when present, in RUNNING state, and fresh within the window. -/
def readerIsRunning (rec : Option RunningStrategyFE) (now window : Int) : Bool :=
  match rec with
  | none => false
  | some r =>
    r.status == "running" &&
      (match r.updated_at with
       | none => false
       | some t => decide (now - t ≤ window))

/- ------------------------------------------------------------------
   Redis status/lock schema (README, Redis data structures section;
   the state-store writer itself is not part of the tree).
   ------------------------------------------------------------------ -/

/-- Status hash key as documented and as probed by the deployment
verification commands: strategy:running:{strategy_id}. -/
def statusKeyImpl (id : Nat) : String :=
  "strategy:running:" ++ toString id

/-- Lock key as documented: strategy:lock:{strategy_id}. -/
def lockKeyImpl (id : Nat) : String :=
  "strategy:lock:" ++ toString id

/-- Field names of the status hash, in documented order. -/
def statusFieldsImpl : List String :=
  ["task_id", "worker_ip", "worker_hostname", "status", "started_at",
   "current_price", "pending_buys", "pending_sells", "position_count",
   "last_error", "updated_at"]

/-- Follows the spec's words only, for comparison with the documented
schema: status keys of the form status:strategy:{id}. -/
def statusKeySpec (id : Nat) : String :=
  "status:strategy:" ++ toString id

/-- Follows the spec's words only, for comparison with the documented
schema: the claimed StatusRecord field names. -/
def statusFieldsSpec : List String :=
  ["task_id", "worker_ip", "worker_hostname", "running_state", "started_at",
   "current_price", "pending_buys", "pending_sells", "open_position_count",
   "last_error", "updated_at"]

/-- A status record with the documented hash fields; values are strings
because a Redis hash stores string fields. -/
structure StatusRecord where
  task_id : String
  worker_ip : String
  worker_hostname : String
  status : String
  started_at : String
  current_price : String
  pending_buys : String
  pending_sells : String
  position_count : String
  last_error : String
  updated_at : String
deriving DecidableEq

/-- Modelled from the spec: the flat field map the engine publishes
(core/state_store.py is not part of the tree; field set from the README
schema). -/
def encodeStatus (r : StatusRecord) : List (String × String) :=
  [("task_id", r.task_id), ("worker_ip", r.worker_ip),
   ("worker_hostname", r.worker_hostname), ("status", r.status),
   ("started_at", r.started_at), ("current_price", r.current_price),
   ("pending_buys", r.pending_buys), ("pending_sells", r.pending_sells),
   ("position_count", r.position_count), ("last_error", r.last_error),
   ("updated_at", r.updated_at)]

/-- Modelled from the spec: an observer reading the hash back (HGETALL
followed by field projection), failing when a field is missing. -/
def decodeStatus (m : List (String × String)) : Option StatusRecord := do
  let t ← List.lookup ("task_id") m
  let wip ← List.lookup ("worker_ip") m
  let whost ← List.lookup ("worker_hostname") m
  let st ← List.lookup ("status") m
  let sa ← List.lookup ("started_at") m
  let cp ← List.lookup ("current_price") m
  let pb ← List.lookup ("pending_buys") m
  let ps ← List.lookup ("pending_sells") m
  let pc ← List.lookup ("position_count") m
  let le ← List.lookup ("last_error") m
  let ua ← List.lookup ("updated_at") m
  pure ⟨t, wip, whost, st, sa, cp, pb, ps, pc, le, ua⟩

/- ------------------------------------------------------------------
   BatchUpdateDialog.handleSubmit (web/src/components).
   ------------------------------------------------------------------ -/

/-- A JavaScript value as it can sit in the dialog's values record. -/
inductive JsVal where
  | undef
  | vstr (s : String)
  | vnum (n : Int)
  | vnull
deriving DecidableEq

/-- One entry of the dialog's field table: key and nullability. -/
structure FieldDef where
  key : String
  nullable : Bool
deriving DecidableEq

/-- The dialog's field table, keys and nullable flags as declared. -/
def batchFields : List FieldDef :=
  [⟨"base_order_size", false⟩, ⟨"buy_price_deviation", false⟩,
   ⟨"sell_price_deviation", false⟩, ⟨"grid_levels", false⟩,
   ⟨"polling_interval", false⟩, ⟨"price_tolerance", false⟩,
   ⟨"stop_loss", true⟩, ⟨"stop_loss_delay", false⟩,
   ⟨"market_close_buffer", false⟩, ⟨"max_open_positions", false⟩,
   ⟨"max_daily_drawdown", true⟩, ⟨"worker_name", true⟩]

/-- Value stored for a checked field: a nullable field whose value is
the empty string or undefined becomes null, anything else is passed
through. -/
def submitEntry (f : FieldDef) (v : JsVal) : String × JsVal :=
  if f.nullable && (v == JsVal.vstr ("") || v == JsVal.undef) then (f.key, JsVal.vnull)
  else (f.key, v)

/-- The update object handleSubmit builds: one entry per checked field,
in table order. -/
def submitPayload (checked : String → Bool) (values : String → JsVal) :
    List (String × JsVal) :=
  (batchFields.filter (fun f => checked f.key)).map (fun f => submitEntry f (values f.key))

/-- handleSubmit: emit the payload and close the dialog only when the
update object is nonempty; otherwise return without emitting. -/
def handleSubmit (checked : String → Bool) (values : String → JsVal) :
    Option (List (String × JsVal)) × Bool :=
  let u := submitPayload checked values
  if u = [] then (none, false) else (some u, true)

/- ------------------------------------------------------------------
   Coordinator distributed lock (backend core is not part of the tree;
   modelled from the spec and the documented Redis lock key with TTL).
   ------------------------------------------------------------------ -/

/-- Modelled from the spec: the LockRecord stored under the strategy's
lock key (the coordinator source is not part of the tree). -/
structure LockRecord where
  owner_token : String
  worker_identity : String
  expires_at : Int
deriving DecidableEq

/-- A lock key holds at most one record; `none` also stands for a key
the store has already expired and removed. -/
def lockUnexpired (st : Option LockRecord) (now : Int) : Bool :=
  match st with
  | none => false
  | some r => decide (now < r.expires_at)

/-- Number of unexpired lock records under one strategy's key. -/
def unexpiredCount (st : Option LockRecord) (now : Int) : Nat :=
  if lockUnexpired st now then 1 else 0

/-- Modelled from the spec: tryAcquire is a single conditional write —
it succeeds exactly when no unexpired record exists, and the successful
write sets owner_token and expires_at together in that one step. -/
def tryAcquire (st : Option LockRecord) (token worker : String) (now ttl : Int) :
    Bool × Option LockRecord :=
  if lockUnexpired st now then (false, st)
  else (true, some ⟨token, worker, now + ttl⟩)

/-- An interleaving of racing acquisition attempts: because each
attempt is one atomic store-side step, any concurrent execution is some
sequential order of the attempts.  Returns the number of successes and
the final state. -/
def raceAcquire (st : Option LockRecord) (attempts : List (String × String))
    (now ttl : Int) : Nat × Option LockRecord :=
  match attempts with
  | [] => (0, st)
  | (tok, w) :: rest =>
    let r1 := tryAcquire st tok w now ttl
    let r2 := raceAcquire r1.2 rest now ttl
    ((if r1.1 then 1 else 0) + r2.1, r2.2)

/-- Outcome reported by the start dispatch. -/
inductive StartOutcome where
  | engineStarted
  | alreadyRunning
  | storeError
deriving DecidableEq

/-- Whether a start outcome is surfaced to the caller as success. -/
def startOutcomeOk : StartOutcome → Bool
  | StartOutcome.storeError => false
  | _ => true

/-- Modelled from the spec: Start(strategy_id) — acquisition failure on
a held lock is a no-op surfaced as success; store unavailability is
fatal to the start attempt. -/
def startStrategy (storeUp : Bool) (lock : Option LockRecord) (token worker : String)
    (now ttl : Int) : StartOutcome × Option LockRecord :=
  if storeUp = false then (StartOutcome.storeError, lock)
  else if lockUnexpired lock now then (StartOutcome.alreadyRunning, lock)
  else (StartOutcome.engineStarted, some ⟨token, worker, now + ttl⟩)

/-- Outcome reported by the stop dispatch. -/
inductive StopOutcome where
  | engineStopped
  | noop
deriving DecidableEq

/-- Modelled from the spec: Stop(strategy_id) — stopping a strategy
that is not running locally is a no-op that leaves the store alone. -/
def stopStrategy (lock : Option LockRecord) (runningHere : Bool) :
    StopOutcome × Option LockRecord :=
  if runningHere then (StopOutcome.engineStopped, none) else (StopOutcome.noop, lock)

/- ------------------------------------------------------------------
   GridStrategy decision rule (strategies/grid_strategy.py is not part
   of the tree; modelled from the spec and the README price ladder).
   ------------------------------------------------------------------ -/

/-- Modelled from the spec: one rung of the buy ladder,
p * (1 - buy_deviation% * i). -/
def buyLevel (p d : ℚ) (i : Nat) : ℚ :=
  p * (1 - d / 100 * i)

/-- Modelled from the spec: the buy ladder for levels 1..n. -/
def buyLevels (p d : ℚ) (n : Nat) : List ℚ :=
  (List.range n).map (fun k => buyLevel p d (k + 1))

/-- Modelled from the spec: the sell paired to a filled buy at price b,
b * (1 + sell_deviation%). -/
def pairedSellPrice (b sd : ℚ) : ℚ :=
  b * (1 + sd / 100)

/-- A standing exchange order as the reconciler sees it. -/
structure LiveOrder where
  orderId : Nat
  price : ℚ
deriving DecidableEq

/-- Modelled from the spec: a desired price falls within
price_tolerance% of a live order's price. -/
def withinTol (desired live tol : ℚ) : Bool :=
  decide (|desired - live| * 100 ≤ tol * live)

/-- Actions the reconciliation step produces for one order side. -/
structure ReconcileResult where
  keep : List LiveOrder
  cancel : List LiveOrder
  place : List ℚ
deriving DecidableEq

/-- Modelled from the spec: diff desired prices against live orders —
a live order within tolerance of some desired price is kept unmodified,
any other live order is cancelled, and a desired price matched by no
live order is placed. -/
def reconcile (desired : List ℚ) (live : List LiveOrder) (tol : ℚ) : ReconcileResult :=
  { keep := live.filter (fun o => desired.any (fun d => withinTol d o.price tol))
    cancel := live.filter (fun o => !(desired.any (fun d => withinTol d o.price tol)))
    place := desired.filter (fun d => !(live.any (fun o => withinTol d o.price tol))) }

/-- Grid parameters the decision function reads. -/
structure GridParams where
  levels : Nat
  buyDev : ℚ
  sellDev : ℚ
  tol : ℚ
deriving DecidableEq

/-- Input snapshot of one tick: current price, entry prices of open
positions, and the standing orders on each side. -/
structure GridInput where
  price : ℚ
  positions : List ℚ
  liveBuys : List LiveOrder
  liveSells : List LiveOrder
deriving DecidableEq

/-- Modelled from the spec: the full pure decision function — desired
buys are the ladder, desired sells pair the open positions, each side
is reconciled against its live orders. -/
def gridDecide (P : GridParams) (inp : GridInput) : ReconcileResult × ReconcileResult :=
  (reconcile (buyLevels inp.price P.buyDev P.levels) inp.liveBuys P.tol,
   reconcile (inp.positions.map (fun b => pairedSellPrice b P.sellDev)) inp.liveSells P.tol)

/- ------------------------------------------------------------------
   RiskManager price stop-loss (domain/risk_manager.py is not part of
   the tree; modelled from the spec).
   ------------------------------------------------------------------ -/

/-- An open position as the risk check sees it. -/
structure Position where
  entry_price : ℚ
  quantity : ℚ
  opened_at : Int
deriving DecidableEq

/-- Modelled from the spec: the price stop-loss closes a position only
when the relative move breaches -stop_loss% and the position has been
open for at least stop_loss_delay seconds. -/
def stopLossTriggered (P : Position) (current stopLossPct : ℚ) (delay now : Int) : Bool :=
  decide ((current - P.entry_price) / P.entry_price ≤ -(stopLossPct / 100)) &&
    decide (delay ≤ now - P.opened_at)

/- ------------------------------------------------------------------
   Theorems.
   ------------------------------------------------------------------ -/

/-- C9: hashCode is non-negative on every string, both color helpers
derive the same hue hashCode % 360 lying in [0, 360), and each helper
is a function of the hue with fixed saturation and lightness, hence
deterministic on equal inputs. -/
theorem hash_color_deterministic_hue (s : String) :
    0 ≤ hashCode s ∧
    (0 ≤ hashCode s % 360 ∧ hashCode s % 360 < 360) ∧
    exchangeColor s = "hsl(" ++ toString (hashCode s % 360) ++ ", 55%, 45%)" ∧
    exchangeBgColor s = "hsl(" ++ toString (hashCode s % 360) ++ ", 50%, 94%)" := by
  refine ⟨Int.ofNat_nonneg _,
    ⟨Int.emod_nonneg _ (by norm_num), Int.emod_lt_of_pos _ (by norm_num)⟩, rfl, rfl⟩

/-- C8: the worker name resolution is deterministic and layered — a
nonempty WORKER_NAME wins verbatim; otherwise a persisted name is
reused with only CR/LF stripped; otherwise the name is the prefix, a
dash, and the first 12 hex characters of the digest of the seed, where
the seed is WORKER_NODE_ID when set, else the machine id, else the
hostname; and the script exits with an error instead of starting a
worker with an empty name. -/
theorem worker_name_resolution (env : ShellEnv) :
    (env.workerNameEnv.getD ("") ≠ "" →
      entrypoint env = StartResult.started (env.workerNameEnv.getD (""))) ∧
    (env.workerNameEnv.getD ("") = "" → ∀ content, env.persistedName = some content →
      stripCrLf content ≠ "" → entrypoint env = StartResult.started (stripCrLf content)) ∧
    (env.workerNameEnv.getD ("") = "" → env.persistedName = none →
      build_worker_name env ≠ "" →
      entrypoint env = StartResult.started (build_worker_name env)) ∧
    build_worker_name env =
      env.namePref ++ "-" ++ String.mk ((hashHex env (resolve_seed env)).data.take 12) ∧
    (env.workerNodeId.getD ("") ≠ "" → resolve_seed env = env.workerNodeId.getD ("")) ∧
    (env.workerNodeId.getD ("") = "" → ∀ c, env.machineId = some c →
      resolve_seed env = stripNewlines c) ∧
    (env.workerNodeId.getD ("") = "" → env.machineId = none →
      resolve_seed env = env.hostname) ∧
    (entrypointName env = "" → entrypoint env = StartResult.exitError ("worker name is empty")) ∧
    (∀ n, entrypoint env = StartResult.started n → n ≠ "") := by
  refine ⟨?_, ?_, ?_, rfl, ?_, ?_, ?_, ?_, ?_⟩
  · intro h
    simp only [entrypoint, entrypointName, if_pos h]
    have hne : env.workerNameEnv.getD ("") ≠ "" := h
    simp [hne]
  · intro h content hp hne
    simp only [entrypoint, entrypointName, h, hp]
    simp [hne]
  · intro h hp hne
    simp only [entrypoint, entrypointName, h, hp]
    simp [hne]
  · intro h
    simp [resolve_seed, h]
  · intro h c hc
    simp [resolve_seed, h, hc]
  · intro h hc
    simp [resolve_seed, h, hc]
  · intro h
    simp [entrypoint, h]
  · intro n hstart
    intro hempty
    subst hempty
    by_cases h : entrypointName env = ""
    · simp [entrypoint, h] at hstart
    · simp [entrypoint, h] at hstart

/-- Concrete environment exercising the WORKER_NAME branch. -/
def envNamed : ShellEnv :=
  { workerNodeId := none, machineId := none, hostname := "hostA"
    workerNameEnv := some "celery@alpha", persistedName := none
    hasSha256sum := true
    sha256hex := fun _ => "0123456789abcdef0123456789abcdef0123456789abcdef0123456789abcdef"
    md5hex := fun _ => "0123456789abcdef0123456789abcdef"
    namePref := "celery@worker" }

/-- Witness for C8 at a concrete environment with WORKER_NAME set. -/
theorem worker_name_resolution_witness :
    entrypoint envNamed = StartResult.started (envNamed.workerNameEnv.getD ("")) :=
  (worker_name_resolution envNamed).1 (by decide)

/-- Looking up a key right after deleting it yields nothing. -/
theorem mapLookup_erase (id : Nat) (m : List (Nat × StrategyStatusFE)) :
    mapLookup id (mapErase id m) = none := by
  have h : List.find? (fun e => e.1 == id) (List.filter (fun e => e.1 != id) m) = none := by
    rw [List.find?_eq_none]
    intro e he
    have hmem := List.of_mem_filter he
    simp only [bne_iff_ne, ne_eq] at hmem
    simp [hmem]
  simp [mapLookup, mapErase, h]

/-- Looking up a key right after setting it yields the stored record. -/
theorem mapLookup_insert (id : Nat) (st : StrategyStatusFE)
    (m : List (Nat × StrategyStatusFE)) :
    mapLookup id (mapInsert id st m) = some st := by
  simp [mapLookup, mapInsert, List.find?]

/-- A running record with an arbitrarily old updated_at, as the Monitor
view can receive it. -/
def staleStatus : StrategyStatusFE :=
  { strategy_id := 1, is_running := true, current_price := none
    pending_buys := 0, pending_sells := 0, position_count := 0
    updated_at := some 0, last_error := none }

/-- C2 counterexample: the frontend reader does not drop a record whose
updated_at is older than any freshness window — a record with
is_running true and updated_at 0 stays in the running map at now
1700000000 with window 60. -/
theorem frontend_freshness_cx :
    ¬ (∀ (st : StrategyStatusFE) (m : List (Nat × StrategyStatusFE)) (now window tsv : Int),
        st.updated_at = some tsv → window < now - tsv →
        mapLookup st.strategy_id (fetchStatusStep st.strategy_id (FetchResult.ok st) m) = none) := by
  intro h
  exact absurd (h staleStatus [] 1700000000 60 0 rfl (by decide)) (by decide)

/-- C2 (amended): the frontend readers report not-running exactly on an
errored fetch or a payload that is not running — fetchStatus drops such
ids from the running map and keeps a running payload regardless of its
age, and the getRunning construction sets is_running by comparing the
status field with the running literal; the freshness window of the spec
is applied by the (modelled) API-side reader, which reports not-running
on an absent record, a non-running state, or a stale updated_at. -/
theorem frontend_status_readers (id : Nat) (st : StrategyStatusFE)
    (m : List (Nat × StrategyStatusFE)) (item : RunningStrategyFE)
    (rec : Option RunningStrategyFE) (now window : Int) :
    (st.is_running = false → mapLookup id (fetchStatusStep id (FetchResult.ok st) m) = none) ∧
    mapLookup id (fetchStatusStep id FetchResult.err m) = none ∧
    (st.is_running = true → mapLookup id (fetchStatusStep id (FetchResult.ok st) m) = some st) ∧
    (statusFromRunning item).is_running = (item.status == "running") ∧
    readerIsRunning none now window = false ∧
    (∀ r, rec = some r → r.status ≠ "running" → readerIsRunning rec now window = false) ∧
    (∀ r t, rec = some r → r.updated_at = some t → window < now - t →
      readerIsRunning rec now window = false) := by
  refine ⟨?_, ?_, ?_, rfl, rfl, ?_, ?_⟩
  · intro h
    simp [fetchStatusStep, h, mapLookup_erase]
  · simp [fetchStatusStep, mapLookup_erase]
  · intro h
    simp [fetchStatusStep, h, mapLookup_insert]
  · intro r hr hs
    subst hr
    simp [readerIsRunning, hs]
  · intro r t hr ht hw
    subst hr
    have hlt : ¬ (now - t ≤ window) := by omega
    simp [readerIsRunning, ht, hlt]

/-- C3 counterexample: the claim's status key disagrees with the
documented key at strategy 1, and the claimed field names
running_state and open_position_count do not occur among the
documented hash fields. -/
theorem status_schema_cx :
    statusKeyImpl 1 ≠ statusKeySpec 1 ∧
    statusKeySpec 1 = "status:strategy:1" ∧
    statusKeyImpl 1 = "strategy:running:1" ∧
    ("running_state" ∈ statusFieldsSpec ∧ "running_state" ∉ statusFieldsImpl) ∧
    ("open_position_count" ∈ statusFieldsSpec ∧ "open_position_count" ∉ statusFieldsImpl) := by
  refine ⟨by decide, rfl, rfl, ⟨by decide, by decide⟩, ⟨by decide, by decide⟩⟩

/-- C3 (amended): the live status record is published under
strategy:running:{id} (lock under strategy:lock:{id}) as a flat field
map with exactly the documented fields — running_state is the field
named status and open_position_count the field named position_count —
and a record written as that field map reads back with the same values
under the same names. -/
theorem status_schema_roundtrip (id : Nat) (r : StatusRecord) :
    statusKeyImpl id = "strategy:running:" ++ toString id ∧
    lockKeyImpl id = "strategy:lock:" ++ toString id ∧
    (encodeStatus r).map Prod.fst = statusFieldsImpl ∧
    decodeStatus (encodeStatus r) = some r := by
  refine ⟨rfl, rfl, rfl, ?_⟩
  rfl

/-- Attempts against a currently held (unexpired) lock all fail and
leave the record untouched. -/
theorem raceAcquire_of_locked (st : Option LockRecord) (attempts : List (String × String))
    (now ttl : Int) (h : lockUnexpired st now = true) :
    raceAcquire st attempts now ttl = (0, st) := by
  induction attempts with
  | nil => rfl
  | cons a rest ih =>
    obtain ⟨tok, w⟩ := a
    simp [raceAcquire, tryAcquire, h, ih]

/-- C1: against a state with no unexpired record, any interleaving of
racing acquisition attempts produces exactly one winner; the key holds
at most one unexpired record at any instant; and the winning write sets
owner_token and expires_at together in its single conditional step. -/
theorem lock_mutual_exclusion (st : Option LockRecord) (attempts : List (String × String))
    (now ttl : Int) (hfree : lockUnexpired st now = false) (httl : 0 < ttl)
    (hne : attempts ≠ []) :
    (raceAcquire st attempts now ttl).1 = 1 ∧
    (∀ s2 t, unexpiredCount s2 t ≤ 1) ∧
    (∀ tok w ok s2, tryAcquire st tok w now ttl = (ok, s2) →
      ok = true ∧ s2 = some ⟨tok, w, now + ttl⟩) := by
  refine ⟨?_, ?_, ?_⟩
  · match attempts with
    | [] => exact absurd rfl hne
    | (tok, w) :: rest =>
      have hstep : tryAcquire st tok w now ttl = (true, some ⟨tok, w, now + ttl⟩) := by
        simp [tryAcquire, hfree]
      have hlocked : lockUnexpired (some (⟨tok, w, now + ttl⟩ : LockRecord)) now = true := by
        simp [lockUnexpired]
        omega
      simp [raceAcquire, hstep, raceAcquire_of_locked _ rest now ttl hlocked]
  · intro s2 t
    unfold unexpiredCount
    split <;> omega
  · intro tok w ok s2 hstep
    rw [tryAcquire, hfree] at hstep
    simp at hstep
    exact ⟨hstep.1, hstep.2.symm⟩

/-- Witness for C1: three workers racing on a free lock at instant 0
with a day-long TTL — exactly one attempt wins. -/
theorem lock_mutual_exclusion_witness :
    (raceAcquire none [("t1", "w1"), ("t2", "w2"), ("t3", "w3")] 0 86400).1 = 1 ∧
    (∀ s2 t, unexpiredCount s2 t ≤ 1) ∧
    (∀ tok w ok s2, tryAcquire none tok w 0 86400 = (ok, s2) →
      ok = true ∧ s2 = some ⟨tok, w, 0 + 86400⟩) :=
  lock_mutual_exclusion none [("t1", "w1"), ("t2", "w2"), ("t3", "w3")] 0 86400
    rfl (by decide) (by decide)

/-- C4: the buy ladder has one level per grid step with
buy_levels[i] = p * (1 - d% * i) for i = 1..n, the paired sell to a
fill at b is b * (1 + sell_deviation%), and the concrete scenario
p = 100, d = 1%, n = 3 yields [99, 98, 97] with a fill at 98 paired at
98 * (1 + sd%). -/
theorem grid_ladder (p d b sd : ℚ) (n : Nat) :
    (buyLevels p d n).length = n ∧
    (∀ i, i < n → (buyLevels p d n).getD i 0 = p * (1 - d / 100 * ((i : ℚ) + 1))) ∧
    pairedSellPrice b sd = b * (1 + sd / 100) ∧
    buyLevels 100 1 3 = [99, 98, 97] ∧
    pairedSellPrice 98 sd = 98 * (1 + sd / 100) := by
  refine ⟨by simp [buyLevels], ?_, rfl, ?_, rfl⟩
  · intro i hi
    simp [buyLevels, buyLevel, List.getD, List.getElem?_map, List.getElem?_range, hi]
  · show buyLevels 100 1 3 = [99, 98, 97]
    norm_num [buyLevels, buyLevel, List.range_succ]

/-- Witness for C4: level 2 (third rung) of the scenario ladder sits at
97. -/
theorem grid_ladder_witness :
    (buyLevels 100 1 3).getD 2 0 = 100 * (1 - 1 / 100 * ((2 : ℚ) + 1)) :=
  (grid_ladder 100 1 98 1 3).2.1 2 (by decide)

/-- C5: starting a strategy whose lock is already held is surfaced as a
non-error no-op that leaves the lock untouched, and stopping a strategy
that is not running is a no-op. -/
theorem start_stop_noop (lock : Option LockRecord) (token worker : String)
    (now ttl : Int) (hheld : lockUnexpired lock now = true) :
    startStrategy true lock token worker now ttl = (StartOutcome.alreadyRunning, lock) ∧
    startOutcomeOk StartOutcome.alreadyRunning = true ∧
    stopStrategy lock false = (StopOutcome.noop, lock) := by
  refine ⟨?_, rfl, rfl⟩
  simp [startStrategy, hheld]

/-- Witness for C5 on a concretely held lock. -/
theorem start_stop_noop_witness :
    startStrategy true (some ⟨"tA", "wA", 100⟩) "tB" "wB" 0 86400
        = (StartOutcome.alreadyRunning, some ⟨"tA", "wA", 100⟩) ∧
    startOutcomeOk StartOutcome.alreadyRunning = true ∧
    stopStrategy (some ⟨"tA", "wA", 100⟩) false
        = (StopOutcome.noop, some ⟨"tA", "wA", 100⟩) :=
  start_stop_noop (some ⟨"tA", "wA", 100⟩) "tB" "wB" 0 86400 (by decide)

/-- C6: the decision function is pure — identical inputs give identical
desired-order sets — and a live order within price_tolerance% of some
desired price is kept unmodified instead of being cancelled. -/
theorem grid_idempotent_keep (P : GridParams) (inp : GridInput)
    (desired : List ℚ) (live : List LiveOrder) (tol : ℚ) (o : LiveOrder)
    (ho : o ∈ live) (hd : ∃ d ∈ desired, withinTol d o.price tol = true) :
    gridDecide P inp = gridDecide P inp ∧
    o ∈ (reconcile desired live tol).keep ∧
    o ∉ (reconcile desired live tol).cancel := by
  refine ⟨rfl, ?_, ?_⟩
  · obtain ⟨d, hdm, hw⟩ := hd
    exact List.mem_filter.mpr ⟨ho, List.any_eq_true.mpr ⟨d, hdm, hw⟩⟩
  · intro hmem
    have hno := (List.mem_filter.mp hmem).2
    obtain ⟨d, hdm, hw⟩ := hd
    rw [Bool.not_eq_true', List.any_eq_false] at hno
    exact hno d hdm hw

/-- Witness for C6: a live order at 99.2 against a desired level 99
with tolerance 0.5% is kept and not cancelled. -/
theorem grid_idempotent_keep_witness :
    gridDecide ⟨3, 1, 1, 1/2⟩ ⟨100, [], [], []⟩ = gridDecide ⟨3, 1, 1, 1/2⟩ ⟨100, [], [], []⟩ ∧
    (⟨7, 496/5⟩ : LiveOrder) ∈ (reconcile [99] [⟨7, 496/5⟩] (1/2)).keep ∧
    (⟨7, 496/5⟩ : LiveOrder) ∉ (reconcile [99] [⟨7, 496/5⟩] (1/2)).cancel :=
  grid_idempotent_keep ⟨3, 1, 1, 1/2⟩ ⟨100, [], [], []⟩ [99] [⟨7, 496/5⟩] (1/2) ⟨7, 496/5⟩
    (List.mem_singleton.mpr rfl)
    ⟨99, List.mem_singleton.mpr rfl, by
      show withinTol 99 (496/5) (1/2) = true
      rw [withinTol, decide_eq_true_eq,
        show (99 : ℚ) - 496/5 = -(1/5) by norm_num, abs_neg, abs_of_nonneg (by norm_num)]
      norm_num⟩

/-- C7: the stop-loss fires exactly when the relative loss breaches
-stop_loss% and the position has been open at least stop_loss_delay
seconds; with the loss breached it does not fire one second before the
delay elapses and does fire one second after. -/
theorem stop_loss_delay_boundary (P : Position) (current stopLossPct : ℚ) (delay : Int)
    (hloss : (current - P.entry_price) / P.entry_price ≤ -(stopLossPct / 100)) :
    (∀ now, stopLossTriggered P current stopLossPct delay now = true ↔
      ((current - P.entry_price) / P.entry_price ≤ -(stopLossPct / 100) ∧
        delay ≤ now - P.opened_at)) ∧
    stopLossTriggered P current stopLossPct delay (P.opened_at + delay - 1) = false ∧
    stopLossTriggered P current stopLossPct delay (P.opened_at + delay + 1) = true := by
  refine ⟨?_, ?_, ?_⟩
  · intro now
    simp [stopLossTriggered]
  · have hB : ¬ (delay ≤ P.opened_at + delay - 1 - P.opened_at) := by omega
    simp [stopLossTriggered, hB]
  · have hB : delay ≤ P.opened_at + delay + 1 - P.opened_at := by omega
    simp [stopLossTriggered, hB, hloss]

/-- Witness for C7: entry 100, price 90, stop-loss 5%, delay 30s,
opened at 0 — not closed at 29s, eligible at 31s. -/
theorem stop_loss_delay_boundary_witness :
    (∀ now, stopLossTriggered ⟨100, 1, 0⟩ 90 5 30 now = true ↔
      (((90 : ℚ) - (100 : ℚ)) / (100 : ℚ) ≤ -((5 : ℚ) / 100) ∧ (30 : Int) ≤ now - 0)) ∧
    stopLossTriggered ⟨100, 1, 0⟩ 90 5 30 (0 + 30 - 1) = false ∧
    stopLossTriggered ⟨100, 1, 0⟩ 90 5 30 (0 + 30 + 1) = true :=
  stop_loss_delay_boundary ⟨100, 1, 0⟩ 90 5 30 (by norm_num)

/-- The key of a submit entry is always the field's key. -/
theorem submitEntry_fst (f : FieldDef) (v : JsVal) : (submitEntry f v).1 = f.key := by
  rw [submitEntry]
  split <;> rfl

/-- C10: the emitted payload has exactly the checked fields as keys in
table order; a checked nullable field whose value is the empty string
or undefined contributes null, any other checked field contributes its
entered value; and with nothing checked, nothing is emitted and the
dialog stays open. -/
theorem batch_update_submit (checked : String → Bool) (values : String → JsVal) :
    (submitPayload checked values).map Prod.fst
        = (batchFields.filter (fun f => checked f.key)).map FieldDef.key ∧
    (∀ f, f ∈ batchFields → checked f.key = true → f.nullable = true →
      (values f.key = JsVal.vstr ("") ∨ values f.key = JsVal.undef) →
      (f.key, JsVal.vnull) ∈ submitPayload checked values) ∧
    (∀ f, f ∈ batchFields → checked f.key = true →
      (f.nullable = false ∨ (values f.key ≠ JsVal.vstr ("") ∧ values f.key ≠ JsVal.undef)) →
      (f.key, values f.key) ∈ submitPayload checked values) ∧
    ((∀ f, f ∈ batchFields → checked f.key = false) →
      handleSubmit checked values = (none, false)) := by
  refine ⟨?_, ?_, ?_, ?_⟩
  · simp [submitPayload, List.map_map, Function.comp, submitEntry_fst]
  · intro f hf hc hn hv
    have hentry : submitEntry f (values f.key) = (f.key, JsVal.vnull) := by
      rw [submitEntry]
      have hcond : (f.nullable && (values f.key == JsVal.vstr ("") || values f.key == JsVal.undef)) = true := by
        rcases hv with hv | hv <;> simp [hn, hv]
      rw [if_pos hcond]
    exact List.mem_map.mpr ⟨f, List.mem_filter.mpr ⟨hf, hc⟩, hentry⟩
  · intro f hf hc hv
    have hentry : submitEntry f (values f.key) = (f.key, values f.key) := by
      rw [submitEntry]
      have hcond : (f.nullable && (values f.key == JsVal.vstr ("") || values f.key == JsVal.undef)) = false := by
        rcases hv with hv | hv
        · simp [hv]
        · simp [hv.1, hv.2]
      rw [if_neg (by simp [hcond])]
    exact List.mem_map.mpr ⟨f, List.mem_filter.mpr ⟨hf, hc⟩, hentry⟩
  · intro hnone
    have hfil : batchFields.filter (fun f => checked f.key) = [] := by
      rw [List.filter_eq_nil_iff]
      intro f hf
      simp [hnone f hf]
    simp [handleSubmit, submitPayload, hfil]

/-- Witness for C10: with only the nullable stop_loss field checked and
an empty value entered, the payload maps stop_loss to null. -/
theorem batch_update_submit_witness :
    ((("stop_loss" : String), JsVal.vnull) ∈
      submitPayload (fun k => k == "stop_loss") (fun _ => JsVal.vstr (""))) :=
  (batch_update_submit (fun k => k == "stop_loss") (fun _ => JsVal.vstr (""))).2.1
    ⟨"stop_loss", true⟩ (by decide) (by decide) rfl (Or.inl rfl)

/-- A fetched payload that is not running. -/
def stoppedStatus : StrategyStatusFE :=
  { strategy_id := 2, is_running := false, current_price := none
    pending_buys := 0, pending_sells := 0, position_count := 0
    updated_at := some 0, last_error := none }

/-- A getRunning item in the error state. -/
def erroredItem : RunningStrategyFE :=
  { strategy_id := 2, task_id := "t", worker_ip := "ip", worker_hostname := "h"
    status := "error", current_price := none, pending_buys := 0, pending_sells := 0
    position_count := 0, started_at := none, updated_at := some 0, last_error := none }

/-- Witness for the amended C2: a non-running payload is dropped from
the running map. -/
theorem frontend_status_readers_witness :
    mapLookup 2 (fetchStatusStep 2 (FetchResult.ok stoppedStatus) []) = none :=
  (frontend_status_readers 2 stoppedStatus [] erroredItem (some erroredItem) 100 60).1 rfl
